import Mathlib

/-!
Shallow embedding of the token-accounting and compaction core of the
repository (src/src/compaction/compaction.ts), together with a model of the
memory-flush state machine whose implementation file is not part of the
sources (only its test, src/unnamed/part_000, and the spec describe it).

Strings are modelled as Lean String values; a character is a Unicode scalar
value (the JS code operates on UTF-16 code units, which coincides with
scalars on the Basic Multilingual Plane where all character classes used by
the estimator live). JS numbers are modelled as Int / Rat; integer-valued
token counts and the estimator arithmetic are exact in binary64 over the
ranges involved, but the display pipeline divides on doubles, so its
divisions and multiplications are modelled by an explicit binary64
round-to-nearest-even function (normal range only; overflow and subnormals
lie outside the token ranges evaluated here). Asynchronous functions are
modelled as pure functions; a fallible external token counter is modelled
by an explicit outcome type.
-/

namespace DeepagentsBot

/-- Constant MESSAGE_TOKEN_OVERHEAD from compaction.ts. -/
def MESSAGE_TOKEN_OVERHEAD : Nat := 4

/-- Constant MIN_CONTEXT_BUDGET_TOKENS from compaction.ts. -/
def MIN_CONTEXT_BUDGET_TOKENS : Int := 1

/-- Character class of the regex range [一-龥] in estimateTokens. -/
def isCjkChar (c : Char) : Bool :=
  0x4e00 ≤ c.toNat && c.toNat ≤ 0x9fa5

/-- Character class of the regex range [a-zA-Z]. -/
def isAsciiLetterChar (c : Char) : Bool :=
  (97 ≤ c.toNat && c.toNat ≤ 122) || (65 ≤ c.toNat && c.toNat ≤ 90)

/-- Character class of the JS regex escape \s (ECMAScript WhiteSpace and
LineTerminator code points). -/
def isJsWhitespaceChar (c : Char) : Bool :=
  (0x9 ≤ c.toNat && c.toNat ≤ 0xD) || c.toNat == 0x20 || c.toNat == 0xA0 ||
  c.toNat == 0x1680 || (0x2000 ≤ c.toNat && c.toNat ≤ 0x200A) ||
  c.toNat == 0x2028 || c.toNat == 0x2029 || c.toNat == 0x202F ||
  c.toNat == 0x205F || c.toNat == 0x3000 || c.toNat == 0xFEFF

/-- Characters surviving text.replace([一-龥a-zA-Z\s], empty) in
estimateTokens: neither CJK, nor ASCII letter, nor JS whitespace. -/
def isOtherCountedChar (c : Char) : Bool :=
  !isCjkChar c && !isAsciiLetterChar c && !isJsWhitespaceChar c

/-- Number of CJK characters: length of text.match([一-龥], g). -/
def cjkCount (l : List Char) : Nat :=
  (l.filter isCjkChar).length

/-- Number of characters kept by the replace call in estimateTokens. -/
def otherCount (l : List Char) : Nat :=
  (l.filter isOtherCountedChar).length

/-- Number of maximal runs of ASCII letters: length of
text.match([a-zA-Z]+, g). The boolean argument records whether the
previous character was a letter (so the current run is already counted). -/
def wordCount : List Char → Bool → Nat
  | [], _ => 0
  | c :: rest, inRun =>
    if isAsciiLetterChar c then
      (if inRun then 0 else 1) + wordCount rest true
    else
      wordCount rest false

/-- Value of chineseChars + englishWords * 1.3 + otherChars * 0.5 in tenths
of a token, as exact integer arithmetic. -/
def estimateTokensTenths (l : List Char) : Nat :=
  10 * cjkCount l + 13 * wordCount l false + 5 * otherCount l

/-- Function estimateTokens from compaction.ts: empty text yields 0,
otherwise the weighted character count is rounded up to a whole token
(Math.ceil of tenths / 10). -/
def estimateTokens (text : String) : Nat :=
  if text = "" then 0
  else (estimateTokensTenths text.data + 9) / 10

/-- Role discriminator returned by BaseMessage. The other constructor
carries the raw type tag of any further LangChain message kind. -/
inductive MessageRole where
  | system
  | human
  | ai
  | other (tag : String)
  deriving DecidableEq, Repr

/-- Model of a LangChain BaseMessage: a role and its content already
serialized to text (string content is taken verbatim; structured content
stands for its deterministic JSON.stringify serialization). -/
structure BaseMessage where
  role : MessageRole
  content : String
  deriving DecidableEq, Repr

/-- Function estimateMessageTokens: content estimate plus the fixed
4-token structural overhead. -/
def estimateMessageTokens (message : BaseMessage) : Nat :=
  estimateTokens message.content + MESSAGE_TOKEN_OVERHEAD

/-- Function estimateTotalTokens: sum of per-message estimates. -/
def estimateTotalTokens (messages : List BaseMessage) : Nat :=
  (messages.map estimateMessageTokens).sum

/-- Configuration value object CompactionConfig. -/
structure CompactionConfig where
  enabled : Bool
  auto_compact_threshold : Int
  context_window : Int
  reserve_tokens : Int
  max_history_share : Rat
  deriving DecidableEq, Repr

/-- Function roleLabelForMessage from compaction.ts. -/
def roleLabelForMessage (message : BaseMessage) : String :=
  match message.role with
  | MessageRole.human => "user"
  | MessageRole.ai => "assistant"
  | MessageRole.system => "system"
  | MessageRole.other tag => tag

/-- Function serializeMessageForTokenCount from compaction.ts. -/
def serializeMessageForTokenCount (message : BaseMessage) : String :=
  "[" ++ roleLabelForMessage message ++ "]\n" ++ message.content

/-- Outcome of invoking the optional precise counter getNumTokens: a
finite numeric value, a non-finite number (NaN or infinity), or a raised
failure. -/
inductive CounterOutcome where
  | value (q : Rat)
  | nonFinite
  | failure
  deriving DecidableEq

/-- Model of a BaseChatModel: the token-counting capability getNumTokens
may be absent. -/
structure ChatModel where
  getNumTokens : Option (String → CounterOutcome)

/-- Function tryCountTokensByModel from compaction.ts: empty text counts
as 0 before any counter is consulted; an absent model, an absent
capability, a failure, a non-finite result or a negative result all yield
none (the JS null). A finite nonnegative count is rounded up by
Math.ceil. -/
def tryCountTokensByModel (text : String) (model : Option ChatModel) : Option Int :=
  if text = "" then some 0
  else
    match model with
    | none => none
    | some m =>
      match m.getNumTokens with
      | none => none
      | some f =>
        match f text with
        | CounterOutcome.value q => if 0 ≤ q then some ⌈q⌉ else none
        | CounterOutcome.nonFinite => none
        | CounterOutcome.failure => none

/-- Function getCompactionHardContextBudget from compaction.ts. -/
def getCompactionHardContextBudget (config : CompactionConfig) : Int :=
  max MIN_CONTEXT_BUDGET_TOKENS (config.context_window - config.reserve_tokens)

/-- Function getEffectiveAutoCompactThreshold from compaction.ts. -/
def getEffectiveAutoCompactThreshold (config : CompactionConfig) : Int :=
  min config.auto_compact_threshold (getCompactionHardContextBudget config)

/-- Function getCompactionHistoryTokenBudget from compaction.ts:
Math.floor of hard budget times max_history_share, floored at 1. -/
def getCompactionHistoryTokenBudget (config : CompactionConfig) : Int :=
  max MIN_CONTEXT_BUDGET_TOKENS
    ⌊(getCompactionHardContextBudget config : Rat) * config.max_history_share⌋

/-- Function countTokensWithModel from compaction.ts: the model count when
available, else the heuristic estimate. The text ?? empty-string
normalization is the identity on genuine strings. -/
def countTokensWithModel (text : String) (model : Option ChatModel) : Int :=
  match tryCountTokensByModel text model with
  | some n => n
  | none => (estimateTokens text : Int)

/-- Function countMessageTokensWithModel from compaction.ts. -/
def countMessageTokensWithModel (message : BaseMessage) (model : Option ChatModel) : Int :=
  countTokensWithModel (serializeMessageForTokenCount message) model + MESSAGE_TOKEN_OVERHEAD

/-- Function countTotalTokensWithModel from compaction.ts: 0 on an empty
list without any dispatch, otherwise the sum of the per-message counts. -/
def countTotalTokensWithModel (messages : List BaseMessage) (model : Option ChatModel) : Int :=
  if messages = [] then 0
  else (messages.map (fun message => countMessageTokensWithModel message model)).sum

/-- Function shouldAutoCompact from compaction.ts. -/
def shouldAutoCompact (totalTokens : Int) (config : CompactionConfig) : Bool :=
  if !config.enabled then false
  else decide (getEffectiveAutoCompactThreshold config ≤ totalTokens)

/-- Predicate from the filters in pruneMessages: the message type tag is
the string system. -/
def isSystemMessage (m : BaseMessage) : Bool :=
  m.role == MessageRole.system

/-- Result record of pruneMessages. -/
structure PruneResult where
  kept : List BaseMessage
  dropped : List BaseMessage
  droppedTokens : Nat
  keptTokens : Nat
  deriving DecidableEq, Repr

/-- Accumulator of the backward scan loop in pruneMessages: the retained
non-system messages (built by unshift, so chronological), the dropped
list (built by push, so in scan order), and the two token counters. -/
structure PruneAcc where
  keptNonSystem : List BaseMessage
  dropped : List BaseMessage
  droppedTokens : Nat
  currentTokens : Nat
  deriving DecidableEq, Repr

/-- Loop of pruneMessages over i = length-1 downto 0, given the non-system
messages already reversed into scan order (most recent first). A message
is kept when its tokens still fit the available budget, else pushed onto
dropped. -/
def pruneLoop (availableTokens : Int) : List BaseMessage → PruneAcc → PruneAcc
  | [], acc => acc
  | msg :: rest, acc =>
    let msgTokens := estimateMessageTokens msg
    if (acc.currentTokens + msgTokens : Int) ≤ availableTokens then
      pruneLoop availableTokens rest
        { acc with
          keptNonSystem := msg :: acc.keptNonSystem
          currentTokens := acc.currentTokens + msgTokens }
    else
      pruneLoop availableTokens rest
        { acc with
          dropped := acc.dropped ++ [msg]
          droppedTokens := acc.droppedTokens + msgTokens }

/-- Function pruneMessages from compaction.ts. -/
def pruneMessages (messages : List BaseMessage) (maxTokens : Int) : PruneResult :=
  if messages = [] then ⟨[], [], 0, 0⟩
  else
    let systemMessages := messages.filter isSystemMessage
    let nonSystemMessages := messages.filter (fun m => !isSystemMessage m)
    let systemTokens := estimateTotalTokens systemMessages
    let availableTokens : Int := maxTokens - systemTokens
    let acc := pruneLoop availableTokens nonSystemMessages.reverse ⟨[], [], 0, 0⟩
    { kept := systemMessages ++ acc.keptNonSystem
      dropped := acc.dropped
      droppedTokens := acc.droppedTokens
      keptTokens := systemTokens + acc.currentTokens }

/-- Decimal rendering of a natural number, as the JS template literal
renders an integer-valued number. -/
def natToString (n : Nat) : String :=
  String.mk (Nat.toDigits 10 n)

/-- Decimal rendering of an integer. -/
def intToString (i : Int) : String :=
  if i < 0 then "-" ++ natToString i.natAbs else natToString i.natAbs

/-- Rounding of a rational to the nearest integer, ties to even: the
IEEE-754 default rounding applied to the scaled 53-bit significand. -/
def roundNearestEven (q : Rat) : Int :=
  if q - ⌊q⌋ < 1/2 then ⌊q⌋
  else if 1/2 < q - ⌊q⌋ then ⌊q⌋ + 1
  else if ⌊q⌋ % 2 = 0 then ⌊q⌋ else ⌊q⌋ + 1

/-- Binary64 rounding of a positive rational: scale by the power of two
that brings the value into the significand range, round to nearest with
ties to even, scale back. Overflow and subnormal underflow lie outside the
token ranges this file evaluates and are not modelled. -/
def fl64Pos (q : Rat) : Rat :=
  (roundNearestEven (q * 2 ^ ((52 : Int) - Int.log 2 q)) : Rat) * 2 ^ (Int.log 2 q - 52)

/-- Binary64 rounding (round to nearest, ties to even) of the exact
rational value of a JS double operation. -/
def fl64 (q : Rat) : Rat :=
  if q = 0 then 0
  else if 0 < q then fl64Pos q
  else -(fl64Pos (-q))

/-- Digit count of toFixed(1) on a double value d: the integer count of
tenths nearest to d, the larger at ties (ECMAScript toFixed step picking
the n minimizing n divided by 10 minus the value, larger n at ties). -/
def toFixedOneTenths (d : Rat) : Int :=
  ⌊10 * d + 1/2⌋

/-- Function formatTokenCount from compaction.ts: counts of at least 1000
render as tokens / 1000, evaluated as a binary64 division, via toFixed(1)
followed by K; smaller counts render as plain integers. -/
def formatTokenCount (tokens : Int) : String :=
  if 1000 ≤ tokens then
    let tenths : Int := toFixedOneTenths (fl64 ((tokens : Rat) / 1000))
    intToString (tenths / 10) ++ "." ++ intToString (tenths % 10) ++ "K"
  else
    intToString tokens

/-- Rounding of Math.round applied to the value of its double argument:
nearest integer, the larger at ties, i.e. floor of the value plus one
half (exact over the argument value; the double pipeline producing that
argument is modelled by fl64 at the call sites). -/
def jsRound (q : Rat) : Int :=
  ⌊q + 1/2⌋

/-- Function getContextUsageInfo from compaction.ts: the division and the
multiplication by 100 happen on doubles before Math.round. -/
def getContextUsageInfo (currentTokens : Int) (config : CompactionConfig) : String :=
  let percentage : Int :=
    jsRound (fl64 (fl64 ((currentTokens : Rat) / (config.context_window : Rat)) * 100))
  "[Context: " ++ formatTokenCount currentTokens ++ "/" ++
    formatTokenCount config.context_window ++ " (" ++ intToString percentage ++ "%)]"

/-- Modelled from the spec: the memory-flush state of section 4.5, whose
implementation file memory-flush.js is absent from the sources (only its
test src/unnamed/part_000 is present). A last observed total and the
armed flag. -/
structure MemoryFlushState where
  totalTokens : Int
  flushCycleArmed : Bool
  deriving DecidableEq, Repr

/-- Modelled from the spec: createMemoryFlushState, the initial state
Armed with totalTokens 0. -/
def createMemoryFlushState : MemoryFlushState :=
  ⟨0, true⟩

/-- Modelled from the spec: getMemoryFlushTriggerThreshold is the
effective auto-compact threshold reused as the flush trigger point. -/
def getMemoryFlushTriggerThreshold (config : CompactionConfig) : Int :=
  getEffectiveAutoCompactThreshold config

/-- Modelled from the spec: the fixed hysteresis gap between trigger and
rearm threshold. The spec fixes no numeric value, only that the rearm
threshold is strictly below the trigger threshold; the gap is modelled as
the positive constant 2000. -/
def memoryFlushHysteresisGap : Int := 2000

/-- Modelled from the spec: getMemoryFlushRearmThreshold, a value
strictly below the trigger threshold by the hysteresis gap. -/
def getMemoryFlushRearmThreshold (config : CompactionConfig) : Int :=
  getMemoryFlushTriggerThreshold config - memoryFlushHysteresisGap

/-- Modelled from the spec: setTotalTokens records the observation and,
when currently Cooling and the observation is at or below the rearm
threshold, transitions to Armed; it never disarms. -/
def setTotalTokens (state : MemoryFlushState) (tokens : Int)
    (config : CompactionConfig) : MemoryFlushState :=
  { totalTokens := tokens
    flushCycleArmed :=
      state.flushCycleArmed || decide (tokens ≤ getMemoryFlushRearmThreshold config) }

/-- Modelled from the spec: markFlushCompleted transitions Armed to
Cooling unconditionally and leaves totalTokens unchanged. -/
def markFlushCompleted (state : MemoryFlushState) : MemoryFlushState :=
  { state with flushCycleArmed := false }

/-- Modelled from the spec: shouldTriggerMemoryFlush is true iff the
state is Armed and the observed total is at or above the trigger
threshold. -/
def shouldTriggerMemoryFlush (state : MemoryFlushState)
    (config : CompactionConfig) : Bool :=
  state.flushCycleArmed && decide (getMemoryFlushTriggerThreshold config ≤ state.totalTokens)

/-! Derived views of pruneMessages used by the theorems below. -/

/-- System messages of an input list, in original order. -/
def systemMessagesOf (messages : List BaseMessage) : List BaseMessage :=
  messages.filter isSystemMessage

/-- Non-system messages of an input list, in original order. -/
def nonSystemMessagesOf (messages : List BaseMessage) : List BaseMessage :=
  messages.filter (fun m => !isSystemMessage m)

/-- Accumulator state of pruneMessages after the whole backward scan. -/
def pruneAccOf (messages : List BaseMessage) (maxTokens : Int) : PruneAcc :=
  pruneLoop (maxTokens - estimateTotalTokens (systemMessagesOf messages))
    (nonSystemMessagesOf messages).reverse ⟨[], [], 0, 0⟩

/-- Non-system messages retained by pruneMessages, in original order. -/
def keptNonSystemOf (messages : List BaseMessage) (maxTokens : Int) : List BaseMessage :=
  (pruneAccOf messages maxTokens).keptNonSystem

theorem estimateTotalTokens_nil : estimateTotalTokens [] = 0 := rfl

theorem estimateTotalTokens_cons (m : BaseMessage) (l : List BaseMessage) :
    estimateTotalTokens (m :: l) = estimateMessageTokens m + estimateTotalTokens l := rfl

theorem estimateTotalTokens_append (l₁ l₂ : List BaseMessage) :
    estimateTotalTokens (l₁ ++ l₂) = estimateTotalTokens l₁ + estimateTotalTokens l₂ := by
  simp [estimateTotalTokens]

theorem pruneMessages_eq (messages : List BaseMessage) (maxTokens : Int) :
    pruneMessages messages maxTokens =
      { kept := systemMessagesOf messages ++ keptNonSystemOf messages maxTokens
        dropped := (pruneAccOf messages maxTokens).dropped
        droppedTokens := (pruneAccOf messages maxTokens).droppedTokens
        keptTokens := estimateTotalTokens (systemMessagesOf messages) +
          (pruneAccOf messages maxTokens).currentTokens } := by
  unfold pruneMessages keptNonSystemOf pruneAccOf systemMessagesOf nonSystemMessagesOf
  split
  · subst_vars; rfl
  · rfl

theorem pruneLoop_keptNonSystem_sublist (availableTokens : Int)
    (l : List BaseMessage) (acc : PruneAcc) :
    List.Sublist (pruneLoop availableTokens l acc).keptNonSystem
      (l.reverse ++ acc.keptNonSystem) := by
  induction l generalizing acc with
  | nil => simp [pruneLoop]
  | cons msg rest ih =>
    rw [pruneLoop]
    simp only [List.reverse_cons, List.append_assoc, List.singleton_append]
    split
    · exact ih _
    · exact (ih _).trans
        (List.Sublist.append_left (List.sublist_cons_self msg acc.keptNonSystem) rest.reverse)

theorem pruneLoop_dropped_sublist (availableTokens : Int)
    (l : List BaseMessage) (acc : PruneAcc) :
    List.Sublist (pruneLoop availableTokens l acc).dropped (acc.dropped ++ l) := by
  induction l generalizing acc with
  | nil => simp [pruneLoop]
  | cons msg rest ih =>
    rw [pruneLoop]
    split
    · exact (ih _).trans
        (List.Sublist.append_left (List.sublist_cons_self msg rest) acc.dropped)
    · have h := ih { acc with
        dropped := acc.dropped ++ [msg]
        droppedTokens := acc.droppedTokens + estimateMessageTokens msg }
      simpa [List.append_assoc] using h

theorem pruneLoop_perm (availableTokens : Int) (l : List BaseMessage) (acc : PruneAcc) :
    List.Perm
      ((pruneLoop availableTokens l acc).keptNonSystem ++
        (pruneLoop availableTokens l acc).dropped)
      (l ++ (acc.keptNonSystem ++ acc.dropped)) := by
  induction l generalizing acc with
  | nil => simp [pruneLoop]
  | cons msg rest ih =>
    rw [pruneLoop]
    split
    · exact (ih _).trans (by simp [List.perm_middle])
    · refine (ih _).trans ?_
      simp only [List.cons_append]
      refine List.Perm.trans ?_ (List.Perm.cons msg (List.Perm.refl _))
      have hassoc : rest ++ (acc.keptNonSystem ++ (acc.dropped ++ [msg])) =
          (rest ++ (acc.keptNonSystem ++ acc.dropped)) ++ [msg] := by
        simp [List.append_assoc]
      rw [hassoc]
      exact List.perm_append_singleton _ _

theorem pruneLoop_tokens (availableTokens : Int) (l : List BaseMessage) (acc : PruneAcc)
    (hk : acc.currentTokens = estimateTotalTokens acc.keptNonSystem)
    (hd : acc.droppedTokens = estimateTotalTokens acc.dropped) :
    (pruneLoop availableTokens l acc).currentTokens =
        estimateTotalTokens (pruneLoop availableTokens l acc).keptNonSystem ∧
    (pruneLoop availableTokens l acc).droppedTokens =
        estimateTotalTokens (pruneLoop availableTokens l acc).dropped := by
  induction l generalizing acc with
  | nil => exact ⟨hk, hd⟩
  | cons msg rest ih =>
    rw [pruneLoop]
    split
    · exact ih _ (by simp [estimateTotalTokens_cons, hk, Nat.add_comm]) hd
    · refine ih _ hk ?_
      rw [estimateTotalTokens_append, hd]
      simp [estimateTotalTokens_cons, estimateTotalTokens_nil]

theorem pruneLoop_nonpos (availableTokens : Int) (l : List BaseMessage) (acc : PruneAcc)
    (h : availableTokens ≤ 0) :
    (pruneLoop availableTokens l acc).keptNonSystem = acc.keptNonSystem ∧
    (pruneLoop availableTokens l acc).currentTokens = acc.currentTokens := by
  induction l generalizing acc with
  | nil => exact ⟨rfl, rfl⟩
  | cons msg rest ih =>
    rw [pruneLoop]
    have hfour : 4 ≤ estimateMessageTokens msg := Nat.le_add_left _ _
    have hcond : ¬ ((acc.currentTokens + estimateMessageTokens msg : Int) ≤ availableTokens) := by
      have : (4 : Int) ≤ (estimateMessageTokens msg : Int) := by exact_mod_cast hfour
      have hc : (0 : Int) ≤ (acc.currentTokens : Int) := Int.ofNat_nonneg _
      omega
    rw [if_neg hcond]
    exact ih _

/-! Helper lemmas about the token estimator for single-class text. -/

theorem estimateTokens_mk (s : List Char) :
    estimateTokens (String.mk s) = if s = [] then 0 else (estimateTokensTenths s + 9) / 10 := by
  have hiff : (String.mk s = "") ↔ s = [] :=
    ⟨fun h => congrArg String.data h, fun h => by rw [h]⟩
  rw [estimateTokens, if_congr hiff rfl rfl]

theorem cjkChar_not_letter {c : Char} (h : isCjkChar c = true) :
    isAsciiLetterChar c = false := by
  simp only [isCjkChar, Bool.and_eq_true, decide_eq_true_eq] at h
  simp only [isAsciiLetterChar, Bool.or_eq_false_iff, Bool.and_eq_false_iff,
    decide_eq_false_iff_not]
  omega

theorem letterChar_not_cjk {c : Char} (h : isAsciiLetterChar c = true) :
    isCjkChar c = false := by
  simp only [isAsciiLetterChar, Bool.or_eq_true, Bool.and_eq_true, decide_eq_true_eq] at h
  simp only [isCjkChar, Bool.and_eq_false_iff, decide_eq_false_iff_not]
  omega

theorem cjkCount_nil : cjkCount [] = 0 := rfl

theorem cjkCount_of_all (l : List Char) (h : ∀ c ∈ l, isCjkChar c = true) :
    cjkCount l = l.length := by
  rw [cjkCount, List.filter_eq_self.mpr h]

theorem cjkCount_of_none (l : List Char) (h : ∀ c ∈ l, isCjkChar c = false) :
    cjkCount l = 0 := by
  rw [cjkCount, List.filter_eq_nil_iff.mpr (fun c hc => by simp [h c hc])]
  rfl

theorem otherCount_of_all (l : List Char) (h : ∀ c ∈ l, isOtherCountedChar c = true) :
    otherCount l = l.length := by
  rw [otherCount, List.filter_eq_self.mpr h]

theorem otherCount_of_none (l : List Char) (h : ∀ c ∈ l, isOtherCountedChar c = false) :
    otherCount l = 0 := by
  rw [otherCount, List.filter_eq_nil_iff.mpr (fun c hc => by simp [h c hc])]
  rfl

theorem wordCount_of_none (l : List Char) (h : ∀ c ∈ l, isAsciiLetterChar c = false) :
    ∀ b, wordCount l b = 0 := by
  induction l with
  | nil => intro b; rfl
  | cons c rest ih =>
    intro b
    rw [wordCount, if_neg (by simp [h c (List.mem_cons_self c rest)])]
    exact ih (fun d hd => h d (List.mem_cons_of_mem c hd)) false

theorem wordCount_of_all (l : List Char) (h : ∀ c ∈ l, isAsciiLetterChar c = true) :
    wordCount l true = 0 ∧ wordCount l false = (if l = [] then 0 else 1) := by
  induction l with
  | nil => exact ⟨rfl, rfl⟩
  | cons c rest ih =>
    have hc := h c (List.mem_cons_self c rest)
    have ihr := ih (fun d hd => h d (List.mem_cons_of_mem c hd))
    constructor
    · rw [wordCount, if_pos hc]
      simpa using ihr.1
    · rw [wordCount, if_pos hc]
      simpa using ihr.1

theorem estimateTokensTenths_mono_of_class (s t : List Char)
    (h : (∀ c ∈ s ++ t, isCjkChar c = true) ∨ (∀ c ∈ s ++ t, isAsciiLetterChar c = true) ∨
      (∀ c ∈ s ++ t, isOtherCountedChar c = true)) :
    estimateTokensTenths s ≤ estimateTokensTenths (s ++ t) := by
  have hs : ∀ (p : Char → Bool), (∀ c ∈ s ++ t, p c = true) → ∀ c ∈ s, p c = true :=
    fun p hp c hc => hp c (List.mem_append_left t hc)
  rcases h with h | h | h
  · rw [estimateTokensTenths, estimateTokensTenths,
      cjkCount_of_all s (hs _ h), cjkCount_of_all _ h,
      wordCount_of_none s (fun c hc => cjkChar_not_letter (hs _ h c hc)) false,
      wordCount_of_none _ (fun c hc => cjkChar_not_letter (h c hc)) false,
      otherCount_of_none s (fun c hc => by simp [isOtherCountedChar, hs _ h c hc]),
      otherCount_of_none _ (fun c hc => by simp [isOtherCountedChar, h c hc])]
    simp [List.length_append]
  · rw [estimateTokensTenths, estimateTokensTenths,
      cjkCount_of_none s (fun c hc => letterChar_not_cjk (hs _ h c hc)),
      cjkCount_of_none _ (fun c hc => letterChar_not_cjk (h c hc)),
      (wordCount_of_all s (hs _ h)).2, (wordCount_of_all _ h).2,
      otherCount_of_none s (fun c hc => by simp [isOtherCountedChar, hs _ h c hc]),
      otherCount_of_none _ (fun c hc => by simp [isOtherCountedChar, h c hc])]
    by_cases hnil : s = []
    · simp [hnil]
    · rw [if_neg hnil, if_neg (by simp [hnil])]
  · rw [estimateTokensTenths, estimateTokensTenths,
      cjkCount_of_none s (fun c hc => by
        have := hs _ h c hc
        simp only [isOtherCountedChar, Bool.and_eq_true, Bool.not_eq_true',
          Bool.not_eq_false'] at this
        exact this.1.1),
      cjkCount_of_none _ (fun c hc => by
        have := h c hc
        simp only [isOtherCountedChar, Bool.and_eq_true, Bool.not_eq_true',
          Bool.not_eq_false'] at this
        exact this.1.1),
      wordCount_of_none s (fun c hc => by
        have := hs _ h c hc
        simp only [isOtherCountedChar, Bool.and_eq_true, Bool.not_eq_true',
          Bool.not_eq_false'] at this
        exact this.1.2) false,
      wordCount_of_none _ (fun c hc => by
        have := h c hc
        simp only [isOtherCountedChar, Bool.and_eq_true, Bool.not_eq_true',
          Bool.not_eq_false'] at this
        exact this.1.2) false,
      otherCount_of_all s (hs _ h), otherCount_of_all _ h]
    simp [List.length_append]

/-! Helper lemmas connecting pruneMessages to the scan loop. -/

theorem estimateTotalTokens_perm {l₁ l₂ : List BaseMessage} (h : List.Perm l₁ l₂) :
    estimateTotalTokens l₁ = estimateTotalTokens l₂ :=
  (h.map estimateMessageTokens).sum_eq

theorem keptNonSystemOf_sublist (messages : List BaseMessage) (maxTokens : Int) :
    List.Sublist (keptNonSystemOf messages maxTokens) (nonSystemMessagesOf messages) := by
  have h := pruneLoop_keptNonSystem_sublist
    (maxTokens - estimateTotalTokens (systemMessagesOf messages))
    (nonSystemMessagesOf messages).reverse ⟨[], [], 0, 0⟩
  simpa [keptNonSystemOf, pruneAccOf] using h

theorem dropped_sublist_reverse (messages : List BaseMessage) (maxTokens : Int) :
    List.Sublist (pruneMessages messages maxTokens).dropped
      (nonSystemMessagesOf messages).reverse := by
  have h := pruneLoop_dropped_sublist
    (maxTokens - estimateTotalTokens (systemMessagesOf messages))
    (nonSystemMessagesOf messages).reverse ⟨[], [], 0, 0⟩
  rw [pruneMessages_eq]
  simpa [pruneAccOf] using h

theorem mem_keptNonSystemOf_not_system {messages : List BaseMessage} {maxTokens : Int}
    {m : BaseMessage} (hm : m ∈ keptNonSystemOf messages maxTokens) :
    isSystemMessage m = false := by
  have h₁ := (keptNonSystemOf_sublist messages maxTokens).subset hm
  have h₂ := (List.mem_filter.mp h₁).2
  simpa using h₂

theorem kept_filter_nonSystem (messages : List BaseMessage) (maxTokens : Int) :
    (pruneMessages messages maxTokens).kept.filter (fun m => !isSystemMessage m) =
      keptNonSystemOf messages maxTokens := by
  rw [pruneMessages_eq]
  simp only [List.filter_append]
  rw [List.filter_eq_nil_iff.mpr (fun m hm => by
      have := (List.mem_filter.mp hm).2
      simp [this]),
    List.filter_eq_self.mpr (fun m hm => by
      simp [mem_keptNonSystemOf_not_system hm])]
  simp

theorem kept_filter_system (messages : List BaseMessage) (maxTokens : Int) :
    (pruneMessages messages maxTokens).kept.filter isSystemMessage =
      messages.filter isSystemMessage := by
  have hnil : (keptNonSystemOf messages maxTokens).filter isSystemMessage = [] :=
    List.filter_eq_nil_iff.mpr (fun m hm => by
      simp [mem_keptNonSystemOf_not_system hm])
  rw [pruneMessages_eq]
  simp only [List.filter_append, systemMessagesOf, List.filter_filter, Bool.and_self]
  rw [hnil]
  simp

theorem keptNonSystemOf_append_dropped_perm (messages : List BaseMessage) (maxTokens : Int) :
    List.Perm (keptNonSystemOf messages maxTokens ++ (pruneMessages messages maxTokens).dropped)
      (nonSystemMessagesOf messages) := by
  have h := pruneLoop_perm
    (maxTokens - estimateTotalTokens (systemMessagesOf messages))
    (nonSystemMessagesOf messages).reverse ⟨[], [], 0, 0⟩
  rw [pruneMessages_eq]
  simp only [keptNonSystemOf, pruneAccOf]
  refine List.Perm.trans (by simpa using h) ?_
  exact List.reverse_perm _

theorem pruneAccOf_tokens (messages : List BaseMessage) (maxTokens : Int) :
    (pruneAccOf messages maxTokens).currentTokens =
        estimateTotalTokens (pruneAccOf messages maxTokens).keptNonSystem ∧
    (pruneAccOf messages maxTokens).droppedTokens =
        estimateTotalTokens (pruneAccOf messages maxTokens).dropped :=
  pruneLoop_tokens _ _ _ rfl rfl

/-! Concrete fixtures used by counterexamples and witnesses. -/

/-- Configuration of the compaction budget test (compaction-budget.test.ts). -/
def cfgBudgetTest : CompactionConfig := ⟨true, 120000, 128000, 20000, 1/2⟩

/-- Configuration of the memory flush test (src/unnamed/part_000). -/
def cfgFlushTest : CompactionConfig := ⟨true, 80000, 128000, 20000, 1/2⟩

/-- Configuration with a zero auto_compact_threshold. -/
def cfgZeroThreshold : CompactionConfig := ⟨true, 0, 128000, 20000, 1/2⟩

/-- Empty human message: 4 estimated tokens (pure overhead). -/
def exHumanEmpty : BaseMessage := ⟨MessageRole.human, ""⟩

/-- Human message with one CJK character: 5 estimated tokens. -/
def exHumanCjk : BaseMessage := ⟨MessageRole.human, "中"⟩

/-- Human message with content a: 6 estimated tokens. -/
def exHumanA : BaseMessage := ⟨MessageRole.human, "a"⟩

/-- Human message with content b: 6 estimated tokens. -/
def exHumanB : BaseMessage := ⟨MessageRole.human, "b"⟩

/-- System message with content s: 6 estimated tokens. -/
def exSystem : BaseMessage := ⟨MessageRole.system, "s"⟩

/-- System message with six CJK characters: 10 estimated tokens. -/
def exSystemLong : BaseMessage := ⟨MessageRole.system, "中中中中中中"⟩

/-! Claim C1. -/

/-- Property claimed by C1, as stated: the kept non-system messages of
pruneMessages form a contiguous suffix of the non-system input. -/
def keptNonSystemSuffixClaim (messages : List BaseMessage) (maxTokens : Int) : Prop :=
  ((pruneMessages messages maxTokens).kept.filter (fun m => !isSystemMessage m)) <:+
    (messages.filter (fun m => !isSystemMessage m))

/-- C1 counterexample: with a 4-token budget and non-system input
[4-token message, 5-token message], the newer 5-token message is dropped
but the scan then re-admits the older 4-token message, so the kept
non-system messages are not a contiguous suffix of the non-system input
(the spec says a drop forces all older messages to be dropped; the code
has no such mechanism). -/
theorem prune_keptNonSystem_suffix_refuted :
    ¬ keptNonSystemSuffixClaim [exHumanEmpty, exHumanCjk] 4 := by
  unfold keptNonSystemSuffixClaim
  decide

/-- C1 amended: the kept non-system messages returned by pruneMessages
form an order-preserving subsequence (not necessarily contiguous) of the
input's non-system subsequence; after a message is dropped for exceeding
the budget, the scan continues and may still admit older messages that
fit the remaining budget. -/
theorem prune_keptNonSystem_subsequence (messages : List BaseMessage) (maxTokens : Int) :
    List.Sublist ((pruneMessages messages maxTokens).kept.filter (fun m => !isSystemMessage m))
      (messages.filter (fun m => !isSystemMessage m)) := by
  rw [kept_filter_nonSystem]
  exact keptNonSystemOf_sublist messages maxTokens

/-! Claim C2. -/

/-- C2 counterexample: dropping both non-system messages of [a-message,
b-message] under a zero budget yields dropped = [b, a], the backward scan
order, which is not an order-preserving sublist of the input, hence not
oldest-first; and pruning [human, system] under a large budget yields
kept = [system, human], which does not preserve the original relative
ordering of the input messages (system messages are hoisted to the
front). -/
theorem prune_order_refuted :
    ¬ List.Sublist ((pruneMessages [exHumanA, exHumanB] 0).dropped) [exHumanA, exHumanB] ∧
    ¬ List.Sublist ((pruneMessages [exHumanA, exSystem] 100).kept) [exHumanA, exSystem] := by
  constructor
  · decide
  · decide

/-- C2 amended: pruneMessages returns kept as all system messages in
original order followed by the kept non-system messages in original
order (relative order is preserved within each class, but a system
message occurring after non-system messages is moved ahead of them), and
dropped listed in the order the messages were evicted, which is
newest-first among the dropped non-system messages (an order-preserving
sublist of the reversed non-system input). -/
theorem prune_order_characterization (messages : List BaseMessage) (maxTokens : Int) :
    (pruneMessages messages maxTokens).kept =
      messages.filter isSystemMessage ++ keptNonSystemOf messages maxTokens ∧
    List.Sublist (keptNonSystemOf messages maxTokens)
      (messages.filter (fun m => !isSystemMessage m)) ∧
    List.Sublist ((pruneMessages messages maxTokens).dropped)
      (messages.filter (fun m => !isSystemMessage m)).reverse := by
  refine ⟨?_, keptNonSystemOf_sublist messages maxTokens,
    dropped_sublist_reverse messages maxTokens⟩
  rw [pruneMessages_eq]
  rfl

/-! Claim C3. -/

/-- C3 counterexample: with auto_compact_threshold = 0 the effective
auto-compact threshold is min(0, 108000) = 0, so it is not floored at 1;
only the hard context budget and the history token budget are. -/
theorem budget_floor_refuted :
    ¬ (1 ≤ getCompactionHardContextBudget cfgZeroThreshold ∧
       1 ≤ getEffectiveAutoCompactThreshold cfgZeroThreshold ∧
       1 ≤ getCompactionHistoryTokenBudget cfgZeroThreshold) := by
  intro h
  have h₂ := h.2.1
  revert h₂
  decide

/-- C3 amended: for every CompactionConfig, hardContextBudget and
historyTokenBudget are each at least 1; effectiveAutoCompactThreshold is
min(auto_compact_threshold, hardContextBudget), hence at least 1 whenever
auto_compact_threshold is at least 1, but it is not floored and can be 0
or negative when auto_compact_threshold is. -/
theorem budget_floors (config : CompactionConfig) :
    1 ≤ getCompactionHardContextBudget config ∧
    1 ≤ getCompactionHistoryTokenBudget config ∧
    (1 ≤ config.auto_compact_threshold → 1 ≤ getEffectiveAutoCompactThreshold config) := by
  refine ⟨le_max_left _ _, le_max_left _ _, fun h => le_min h (le_max_left _ _)⟩

/-- Witness for the amended C3 at the budget test configuration. -/
theorem budget_floors_check :
    1 ≤ cfgBudgetTest.auto_compact_threshold ∧
    1 ≤ getEffectiveAutoCompactThreshold cfgBudgetTest :=
  ⟨by decide, (budget_floors cfgBudgetTest).2.2 (by decide)⟩

/-! Claim C6. -/

/-- C6: shouldAutoCompact is false whenever the configuration is
disabled, and otherwise true exactly when totalTokens reaches the
effective auto-compact threshold (inclusive boundary); at the budget test
configuration the three derived budgets are 108000, 108000 and 54000, and
the threshold boundary behaves as the test asserts. -/
theorem shouldAutoCompact_policy (config : CompactionConfig) (totalTokens : Int) :
    (shouldAutoCompact totalTokens config = true ↔
      (config.enabled = true ∧ getEffectiveAutoCompactThreshold config ≤ totalTokens)) ∧
    getCompactionHardContextBudget cfgBudgetTest = 108000 ∧
    getEffectiveAutoCompactThreshold cfgBudgetTest = 108000 ∧
    getCompactionHistoryTokenBudget cfgBudgetTest = 54000 ∧
    shouldAutoCompact 107999 cfgBudgetTest = false ∧
    shouldAutoCompact 108000 cfgBudgetTest = true := by
  refine ⟨?_, by decide, by decide, ?_, by decide, by decide⟩
  · rw [shouldAutoCompact]
    cases hE : config.enabled <;> simp [hE]
  · rw [getCompactionHistoryTokenBudget,
      show getCompactionHardContextBudget cfgBudgetTest = 108000 from by decide]
    norm_num [cfgBudgetTest, MIN_CONTEXT_BUDGET_TOKENS]

/-! Claim C7. -/

/-- C7: pruneMessages keeps every system-role message in full regardless
of budget, and when the estimated token cost of the system messages alone
reaches or exceeds maxTokens, every non-system message is dropped and the
kept list is exactly the system messages. -/
theorem prune_system_retention (messages : List BaseMessage) (maxTokens : Int) :
    (pruneMessages messages maxTokens).kept.filter isSystemMessage =
      messages.filter isSystemMessage ∧
    (maxTokens ≤ (estimateTotalTokens (messages.filter isSystemMessage) : Int) →
      (pruneMessages messages maxTokens).kept = messages.filter isSystemMessage) := by
  refine ⟨kept_filter_system messages maxTokens, fun h => ?_⟩
  have hav : maxTokens - (estimateTotalTokens (systemMessagesOf messages) : Int) ≤ 0 := by
    have : estimateTotalTokens (systemMessagesOf messages) =
        estimateTotalTokens (messages.filter isSystemMessage) := rfl
    omega
  have hkept := (pruneLoop_nonpos
    (maxTokens - estimateTotalTokens (systemMessagesOf messages))
    (nonSystemMessagesOf messages).reverse ⟨[], [], 0, 0⟩ hav).1
  rw [pruneMessages_eq]
  show systemMessagesOf messages ++ keptNonSystemOf messages maxTokens =
    messages.filter isSystemMessage
  rw [keptNonSystemOf, pruneAccOf, hkept]
  simp [systemMessagesOf]

/-- Witness for C7 at a system message of 10 estimated tokens and a
budget of 5 over input [system, human]. -/
theorem prune_system_retention_check :
    ((5 : Int) ≤ (estimateTotalTokens ([exSystemLong, exHumanEmpty].filter isSystemMessage) : Int)) ∧
    (pruneMessages [exSystemLong, exHumanEmpty] 5).kept =
      [exSystemLong, exHumanEmpty].filter isSystemMessage :=
  ⟨by decide, (prune_system_retention [exSystemLong, exHumanEmpty] 5).2 (by decide)⟩

/-! Claim C9. -/

/-- C9: pruneMessages partitions its input: kept and dropped together are
a permutation of the input messages, keptTokens and droppedTokens are the
sums of the per-message estimates over kept and dropped respectively, and
they add up to estimateTotalTokens of the input. -/
theorem prune_partition (messages : List BaseMessage) (maxTokens : Int) :
    List.Perm ((pruneMessages messages maxTokens).kept ++
        (pruneMessages messages maxTokens).dropped) messages ∧
    (pruneMessages messages maxTokens).keptTokens =
      estimateTotalTokens (pruneMessages messages maxTokens).kept ∧
    (pruneMessages messages maxTokens).droppedTokens =
      estimateTotalTokens (pruneMessages messages maxTokens).dropped ∧
    (pruneMessages messages maxTokens).keptTokens +
        (pruneMessages messages maxTokens).droppedTokens =
      estimateTotalTokens messages := by
  have hperm : List.Perm ((pruneMessages messages maxTokens).kept ++
      (pruneMessages messages maxTokens).dropped) messages := by
    have hks := keptNonSystemOf_append_dropped_perm messages maxTokens
    have hkept : (pruneMessages messages maxTokens).kept =
        systemMessagesOf messages ++ keptNonSystemOf messages maxTokens := by
      rw [pruneMessages_eq]
    rw [hkept, List.append_assoc]
    refine List.Perm.trans (List.Perm.append_left (systemMessagesOf messages) hks) ?_
    simpa [systemMessagesOf, nonSystemMessagesOf] using
      List.filter_append_perm isSystemMessage messages
  have htok := pruneAccOf_tokens messages maxTokens
  have hkt : (pruneMessages messages maxTokens).keptTokens =
      estimateTotalTokens (pruneMessages messages maxTokens).kept := by
    rw [pruneMessages_eq]
    show estimateTotalTokens (systemMessagesOf messages) +
        (pruneAccOf messages maxTokens).currentTokens =
      estimateTotalTokens (systemMessagesOf messages ++ keptNonSystemOf messages maxTokens)
    rw [estimateTotalTokens_append, htok.1]
    rfl
  have hdt : (pruneMessages messages maxTokens).droppedTokens =
      estimateTotalTokens (pruneMessages messages maxTokens).dropped := by
    rw [pruneMessages_eq]
    exact htok.2
  refine ⟨hperm, hkt, hdt, ?_⟩
  rw [hkt, hdt, ← estimateTotalTokens_append]
  exact estimateTotalTokens_perm hperm

/-! Claim C8. -/

/-- C8: estimateTokens maps the empty text to 0, its codomain is the
nonnegative integers, and it is monotonically non-decreasing under
appending characters of the same character class (CJK characters, ASCII
letters, or other counted non-whitespace characters). -/
theorem estimateTokens_empty_monotone :
    estimateTokens "" = 0 ∧
    (∀ (s t : List Char),
      ((∀ c ∈ s ++ t, isCjkChar c = true) ∨ (∀ c ∈ s ++ t, isAsciiLetterChar c = true) ∨
        (∀ c ∈ s ++ t, isOtherCountedChar c = true)) →
      estimateTokens (String.mk s) ≤ estimateTokens (String.mk (s ++ t))) := by
  refine ⟨rfl, fun s t h => ?_⟩
  rw [estimateTokens_mk, estimateTokens_mk]
  by_cases hs : s = []
  · simp [hs]
  · rw [if_neg hs, if_neg (by simp [hs])]
    exact Nat.div_le_div_right
      (Nat.add_le_add_right (estimateTokensTenths_mono_of_class s t h) 9)

/-- Witness for C8 on single-class letter text. -/
theorem estimateTokens_empty_monotone_check :
    estimateTokens (String.mk ['a']) ≤ estimateTokens (String.mk (['a'] ++ ['b', 'c'])) :=
  estimateTokens_empty_monotone.2 ['a'] ['b', 'c'] (Or.inr (Or.inl (by decide)))

/-! Claim C4 (spec-modelled memory flush state machine). -/

theorem flushFold_stays_disarmed (config : CompactionConfig) (observations : List Int)
    (st : MemoryFlushState) (hst : st.flushCycleArmed = false)
    (h : ∀ t ∈ observations, getMemoryFlushRearmThreshold config < t) :
    (observations.foldl (fun s t => setTotalTokens s t config) st).flushCycleArmed = false := by
  induction observations generalizing st with
  | nil => exact hst
  | cons t rest ih =>
    simp only [List.foldl_cons]
    refine ih _ ?_ (fun u hu => h u (List.mem_cons_of_mem t hu))
    have ht := h t (List.mem_cons_self t rest)
    simp [setTotalTokens, hst, not_le.mpr ht]

/-- C4: the memory flush hysteresis gate (modelled from the spec): the
initial state is armed at zero tokens; shouldTriggerMemoryFlush is true
iff the state is armed and the observation is at or above the trigger
threshold; markFlushCompleted disarms unconditionally and preserves the
observation; setTotalTokens records the observation, never disarms, and
rearms exactly when cooling and the observation is at or below the rearm
threshold, which lies strictly below the trigger threshold; hence after
markFlushCompleted no flush triggers while all observations stay above
the rearm threshold. -/
theorem memoryFlush_state_machine :
    (createMemoryFlushState.totalTokens = 0 ∧ createMemoryFlushState.flushCycleArmed = true) ∧
    (∀ (state : MemoryFlushState) (config : CompactionConfig),
      shouldTriggerMemoryFlush state config = true ↔
        (state.flushCycleArmed = true ∧
          getMemoryFlushTriggerThreshold config ≤ state.totalTokens)) ∧
    (∀ state : MemoryFlushState, markFlushCompleted state = ⟨state.totalTokens, false⟩) ∧
    (∀ (state : MemoryFlushState) (tokens : Int) (config : CompactionConfig),
      (setTotalTokens state tokens config).totalTokens = tokens ∧
      ((setTotalTokens state tokens config).flushCycleArmed = true ↔
        (state.flushCycleArmed = true ∨ tokens ≤ getMemoryFlushRearmThreshold config))) ∧
    (∀ config : CompactionConfig,
      getMemoryFlushRearmThreshold config < getMemoryFlushTriggerThreshold config) ∧
    (∀ (state : MemoryFlushState) (config : CompactionConfig) (observations : List Int),
      (∀ t ∈ observations, getMemoryFlushRearmThreshold config < t) →
      shouldTriggerMemoryFlush
        (observations.foldl (fun s t => setTotalTokens s t config) (markFlushCompleted state))
        config = false) := by
  refine ⟨⟨rfl, rfl⟩, ?_, ?_, ?_, ?_, ?_⟩
  · intro state config
    simp [shouldTriggerMemoryFlush]
  · intro state
    rfl
  · intro state tokens config
    refine ⟨rfl, ?_⟩
    simp [setTotalTokens]
  · intro config
    rw [getMemoryFlushRearmThreshold]
    have : (0 : Int) < memoryFlushHysteresisGap := by decide
    omega
  · intro state config observations h
    have hdis := flushFold_stays_disarmed config observations (markFlushCompleted state) rfl h
    simp [shouldTriggerMemoryFlush, hdis]

/-- Witness for C4 replaying the hysteresis test: after a completed flush
at the trigger threshold 80000 of the flush test configuration, observing
82000 (above the rearm threshold 78000) does not trigger again. -/
theorem memoryFlush_state_machine_check :
    shouldTriggerMemoryFlush
      ([(82000 : Int)].foldl (fun s t => setTotalTokens s t cfgFlushTest)
        (markFlushCompleted ⟨80000, true⟩)) cfgFlushTest = false :=
  memoryFlush_state_machine.2.2.2.2.2 ⟨80000, true⟩ cfgFlushTest [82000] (by decide)

/-! Claim C5. -/

/-- Counter returning the constant 3, used by the C5 witness. -/
def counterThree : String → CounterOutcome := fun _ => CounterOutcome.value 3

/-- C5: countTokensWithModel returns 0 on empty text for every counter;
with a supplied, capable counter returning a finite nonnegative value it
returns that value rounded up to the nearest whole token; with an absent
model, an absent capability, a failure, a non-finite value or a negative
value it returns the heuristic estimate and no error propagates (the
function is total); and countTotalTokensWithModel on an empty list is 0
for every counter. -/
theorem tokenCounter_policy :
    (∀ model, countTokensWithModel "" model = 0) ∧
    (∀ (text : String) (m : ChatModel) (f : String → CounterOutcome) (q : Rat),
      text ≠ "" → m.getNumTokens = some f → f text = CounterOutcome.value q → 0 ≤ q →
      countTokensWithModel text (some m) = ⌈q⌉) ∧
    (∀ text, countTokensWithModel text none = (estimateTokens text : Int)) ∧
    (∀ (text : String) (m : ChatModel), m.getNumTokens = none →
      countTokensWithModel text (some m) = (estimateTokens text : Int)) ∧
    (∀ (text : String) (m : ChatModel) (f : String → CounterOutcome),
      m.getNumTokens = some f → f text = CounterOutcome.failure →
      countTokensWithModel text (some m) = (estimateTokens text : Int)) ∧
    (∀ (text : String) (m : ChatModel) (f : String → CounterOutcome),
      m.getNumTokens = some f → f text = CounterOutcome.nonFinite →
      countTokensWithModel text (some m) = (estimateTokens text : Int)) ∧
    (∀ (text : String) (m : ChatModel) (f : String → CounterOutcome) (q : Rat),
      m.getNumTokens = some f → f text = CounterOutcome.value q → q < 0 →
      countTokensWithModel text (some m) = (estimateTokens text : Int)) ∧
    (∀ model, countTotalTokensWithModel [] model = 0) := by
  have hempty : estimateTokens "" = 0 := rfl
  refine ⟨?_, ?_, ?_, ?_, ?_, ?_, ?_, ?_⟩
  · intro model
    simp [countTokensWithModel, tryCountTokensByModel]
  · intro text m f q htext hf hv hq
    simp [countTokensWithModel, tryCountTokensByModel, htext, hf, hv, hq]
  · intro text
    by_cases htext : text = ""
    · simp [countTokensWithModel, tryCountTokensByModel, htext, hempty]
    · simp [countTokensWithModel, tryCountTokensByModel, htext]
  · intro text m hf
    by_cases htext : text = ""
    · simp [countTokensWithModel, tryCountTokensByModel, htext, hempty]
    · simp [countTokensWithModel, tryCountTokensByModel, htext, hf]
  · intro text m f hf hv
    by_cases htext : text = ""
    · simp [countTokensWithModel, tryCountTokensByModel, htext, hempty]
    · simp [countTokensWithModel, tryCountTokensByModel, htext, hf, hv]
  · intro text m f hf hv
    by_cases htext : text = ""
    · simp [countTokensWithModel, tryCountTokensByModel, htext, hempty]
    · simp [countTokensWithModel, tryCountTokensByModel, htext, hf, hv]
  · intro text m f q hf hv hq
    by_cases htext : text = ""
    · simp [countTokensWithModel, tryCountTokensByModel, htext, hempty]
    · simp [countTokensWithModel, tryCountTokensByModel, htext, hf, hv, not_le.mpr hq]
  · intro model
    rfl

/-- Witness for C5: a capable counter reporting 3 tokens on nonempty text
is believed, ceiling included. -/
theorem tokenCounter_policy_check :
    ("ab" : String) ≠ "" ∧ (0 : Rat) ≤ 3 ∧
    countTokensWithModel "ab" (some ⟨some counterThree⟩) = ⌈(3 : Rat)⌉ :=
  ⟨by decide, by decide,
    tokenCounter_policy.2.1 "ab" ⟨some counterThree⟩ counterThree 3
      (by decide) rfl rfl (by decide)⟩

/-! Claim C10. -/

/-- Definition following the words of the spec: a token count rendered as
value / 1000 to one decimal, i.e. the count of tenths of a K nearest to
the value (the larger count at exact ties, per toFixed), printed as
integer part, decimal point, tenths digit. -/
def specOneDecimalKilo (tokens : Int) : String :=
  intToString (⌊(tokens : Rat) / 100 + 1/2⌋ / 10) ++ "." ++
    intToString (⌊(tokens : Rat) / 100 + 1/2⌋ % 10)

theorem floor_tenths_eq (tokens : Int) :
    ⌊(tokens : Rat) / 100 + 1/2⌋ = (tokens + 50) / 100 := by
  have h : (tokens : Rat) / 100 + 1/2 = ((tokens + 50 : Int) : Rat) / ((100 : Nat) : Rat) := by
    push_cast
    ring
  rw [h, Rat.floor_intCast_div_natCast]
  norm_num

/-! Lemmas about the binary64 rounding model. -/

theorem int_log_eq_of_bounds (q : Rat) (n : Int) (h0 : (2:Rat)^n ≤ q) (h1 : q < (2:Rat)^(n+1)) :
    Int.log 2 q = n := by
  have hq : 0 < q := lt_of_lt_of_le (zpow_pos (by norm_num) n) h0
  have hl : n ≤ Int.log 2 q := by
    rw [← Int.zpow_le_iff_le_log (by norm_num) hq]
    exact_mod_cast h0
  have hu : Int.log 2 q < n + 1 := by
    rw [← Int.lt_zpow_iff_log_lt (by norm_num) hq]
    exact_mod_cast h1
  omega

theorem fl64_eq_of_bounds (q : Rat) (n : Int) (h0 : (2:Rat)^n ≤ q) (h1 : q < (2:Rat)^(n+1)) :
    fl64 q = (roundNearestEven (q * 2 ^ ((52:Int) - n)) : Rat) * 2 ^ (n - 52) := by
  have hq : 0 < q := lt_of_lt_of_le (zpow_pos (by norm_num) n) h0
  rw [fl64, if_neg (ne_of_gt hq), if_pos hq, fl64Pos, int_log_eq_of_bounds q n h0 h1]

theorem roundNearestEven_eq_of_lt (q : Rat) (m : Int) (h0 : (m:Rat) ≤ q) (h1 : q < m + 1/2) :
    roundNearestEven q = m := by
  have hf : ⌊q⌋ = m := by
    rw [Int.floor_eq_iff]
    exact ⟨h0, by linarith⟩
  rw [roundNearestEven, hf, if_pos (by linarith)]

theorem roundNearestEven_close (q : Rat) : |(roundNearestEven q : Rat) - q| ≤ 1/2 := by
  have h0 : (⌊q⌋ : Rat) ≤ q := Int.floor_le q
  have h1 : q < ⌊q⌋ + 1 := Int.lt_floor_add_one q
  rw [roundNearestEven]
  by_cases hlt : q - ⌊q⌋ < 1/2
  · rw [if_pos hlt, abs_le]
    constructor <;> linarith
  · rw [if_neg hlt]
    have hge := not_lt.mp hlt
    by_cases hgt : 1/2 < q - ⌊q⌋
    · rw [if_pos hgt, abs_le]
      push_cast
      constructor <;> linarith
    · rw [if_neg hgt]
      have heq : q - ⌊q⌋ = 1/2 := le_antisymm (not_lt.mp hgt) hge
      by_cases hev : ⌊q⌋ % 2 = 0
      · rw [if_pos hev, abs_le]
        constructor <;> linarith
      · rw [if_neg hev, abs_le]
        push_cast
        constructor <;> linarith

theorem fl64_sub_abs_le (q : Rat) (hq : 0 < q) : |fl64 q - q| ≤ q / 2 ^ 53 := by
  rw [fl64, if_neg (ne_of_gt hq), if_pos hq, fl64Pos]
  have h2 : (2:Rat) ≠ 0 := by norm_num
  set e := Int.log 2 q with he
  set m := q * 2 ^ ((52:Int) - e) with hm
  have hmq : (roundNearestEven m : Rat) * 2 ^ (e - 52) - q =
      ((roundNearestEven m : Rat) - m) * 2 ^ (e - 52) := by
    rw [sub_mul, hm, mul_assoc, ← zpow_add₀ h2]
    norm_num
  have hpos : (0:Rat) < 2 ^ (e - 52) := zpow_pos (by norm_num) _
  rw [hmq, abs_mul, abs_of_pos hpos]
  have hclose := roundNearestEven_close m
  have h2e : (2:Rat) ^ e ≤ q := by
    have h := Int.zpow_log_le_self (R := Rat) (b := 2) (by norm_num) hq
    rw [he]
    exact_mod_cast h
  calc |(roundNearestEven m : Rat) - m| * 2 ^ (e - 52)
      ≤ (1/2) * 2 ^ (e - 52) := mul_le_mul_of_nonneg_right hclose (le_of_lt hpos)
    _ = 2 ^ e / 2 ^ 53 := by
        rw [zpow_sub₀ h2]
        rw [show ((2:Rat) ^ (52:Int)) = 2 ^ (52:Nat) from zpow_natCast 2 52]
        ring
    _ ≤ q / 2 ^ 53 := (div_le_div_iff_of_pos_right (by norm_num)).mpr h2e

theorem tenths_agree (t : Int) (h1k : 1000 ≤ t) (htop : t ≤ 4503599627370496)
    (hmod : t % 100 ≠ 50) :
    ⌊10 * fl64 ((t:Rat)/1000) + 1/2⌋ = (t + 50) / 100 := by
  have hqpos : (0:Rat) < (t:Rat)/1000 := by
    have : (1000:Rat) ≤ (t:Rat) := by exact_mod_cast h1k
    linarith
  have herr := fl64_sub_abs_le ((t:Rat)/1000) hqpos
  rw [abs_le] at herr
  set d := fl64 ((t:Rat)/1000) with hd
  set k := (t + 50) / 100 with hk
  set r := (t + 50) % 100 with hr2
  have hdiv : 100 * k + r = t + 50 := Int.ediv_add_emod (t+50) 100
  have hr1 : 1 ≤ r := by omega
  have hr99 : r ≤ 99 := by omega
  have hcast : (t:Rat) = 100 * (k:Rat) + (r:Rat) - 50 := by
    have h := congrArg (fun z : Int => (z : Rat)) hdiv
    push_cast at h
    linarith
  have hkr1 : (1:Rat) ≤ (r:Rat) := by exact_mod_cast hr1
  have hkr99 : (r:Rat) ≤ 99 := by exact_mod_cast hr99
  have htQ : (t:Rat) ≤ 4503599627370496 := by exact_mod_cast htop
  have htQ0 : (1000:Rat) ≤ (t:Rat) := by exact_mod_cast h1k
  have hlow := herr.1
  have hhigh := herr.2
  rw [Int.floor_eq_iff]
  constructor
  · linarith
  · linarith

/-! Concrete binary64 evaluations used by C10. -/

theorem toFixedOneTenths_at_1500 : toFixedOneTenths (fl64 ((1500:Rat)/1000)) = 15 := by
  have hfl : fl64 ((1500:Rat)/1000) = 3/2 := by
    rw [fl64_eq_of_bounds ((1500:Rat)/1000) 0 (by norm_num) (by norm_num),
      roundNearestEven_eq_of_lt _ 6755399441055744 (by norm_num) (by norm_num)]
    norm_num
  rw [toFixedOneTenths, hfl]
  norm_num

theorem toFixedOneTenths_at_1150 : toFixedOneTenths (fl64 ((1150:Rat)/1000)) = 11 := by
  have hfl : fl64 ((1150:Rat)/1000) = 5179139571476070 / 4503599627370496 := by
    rw [fl64_eq_of_bounds ((1150:Rat)/1000) 0 (by norm_num) (by norm_num),
      roundNearestEven_eq_of_lt _ 5179139571476070 (by norm_num) (by norm_num)]
    norm_num
  rw [toFixedOneTenths, hfl]
  norm_num

theorem percent_at_29_of_200 : jsRound (fl64 (fl64 ((29:Rat)/200) * 100)) = 14 := by
  have hfl1 : fl64 ((29:Rat)/200) = 5224175567749775 / 36028797018963968 := by
    rw [fl64_eq_of_bounds ((29:Rat)/200) (-3) (by norm_num) (by norm_num),
      roundNearestEven_eq_of_lt _ 5224175567749775 (by norm_num) (by norm_num)]
    norm_num
  have hfl2 : fl64 ((5224175567749775 / 36028797018963968 : Rat) * 100) =
      8162774324609023 / 562949953421312 := by
    rw [fl64_eq_of_bounds _ 3 (by norm_num) (by norm_num),
      roundNearestEven_eq_of_lt _ 8162774324609023 (by norm_num) (by norm_num)]
    norm_num
  rw [hfl1, hfl2, jsRound]
  norm_num

/-- Configuration with context_window 200, used by the C10 counterexample. -/
def cfgPercentTest : CompactionConfig := ⟨true, 0, 200, 0, 1/2⟩

/-- C10 counterexample: the program formats on binary64 doubles, not on
exact values. 1150 / 1000 rounds to the double just below 1.15, so
toFixed(1) renders 1.1K while the exact value of 1150/1000 to one decimal
is 1.2 (ties up, and no exact tie rule matches the code: 1050 rounds up);
and at 29 current tokens over a 200-token window the double pipeline
yields Math.round of a value just below 14.5, printing 14
percent, while round(29/200*100) on exact values is 15. -/
theorem formatting_policy_refuted :
    formatTokenCount 1150 = "1.1K" ∧
    specOneDecimalKilo 1150 ++ "K" = "1.2K" ∧
    formatTokenCount 1150 ≠ specOneDecimalKilo 1150 ++ "K" ∧
    getContextUsageInfo 29 cfgPercentTest = "[Context: 29/200 (14%)]" ∧
    jsRound (((29:Rat) / 200) * 100) = 15 := by
  have hcast1150 : (((1150:Int)):Rat) = (1150:Rat) := by norm_num
  have h1150 : formatTokenCount 1150 = "1.1K" := by
    simp only [formatTokenCount, if_pos (by decide : (1000:Int) ≤ 1150)]
    rw [hcast1150, toFixedOneTenths_at_1150]
    decide
  have hspec : specOneDecimalKilo 1150 ++ "K" = "1.2K" := by
    simp only [specOneDecimalKilo]
    rw [show ⌊(((1150:Int)):Rat) / 100 + 1/2⌋ = 12 by rw [hcast1150]; norm_num]
    decide
  have husage : getContextUsageInfo 29 cfgPercentTest = "[Context: 29/200 (14%)]" := by
    simp only [getContextUsageInfo]
    rw [show (((29:Int)):Rat) / ((cfgPercentTest.context_window : Int) : Rat) =
      (29:Rat)/200 by norm_num [cfgPercentTest]]
    rw [percent_at_29_of_200]
    decide
  refine ⟨h1150, hspec, ?_, husage, by rw [jsRound]; norm_num⟩
  rw [h1150, hspec]
  decide

/-- C10 amended: formatTokenCount renders 999 as plain 999 and 1500 as
1.5K; every count of at least 1000 is rendered as the binary64 quotient
tokens / 1000 to one decimal by toFixed (nearest tenth of the double
value, larger at ties) followed by K — which agrees with the exact
one-decimal rendering of the spec for every count up to 2^52 whose last
two digits are not 50, but can differ at those ties because the double
quotient falls on either side of them; every smaller nonnegative count
renders as a plain integer; and getContextUsageInfo produces the context
usage string with the percentage Math.round of the double evaluation of
currentTokens / context_window * 100. -/
theorem formatting_policy :
    formatTokenCount 999 = "999" ∧
    formatTokenCount 1500 = "1.5K" ∧
    (∀ tokens : Int, 1000 ≤ tokens →
      formatTokenCount tokens =
        intToString (toFixedOneTenths (fl64 ((tokens : Rat) / 1000)) / 10) ++ "." ++
          intToString (toFixedOneTenths (fl64 ((tokens : Rat) / 1000)) % 10) ++ "K") ∧
    (∀ tokens : Int, 1000 ≤ tokens → tokens ≤ 4503599627370496 → tokens % 100 ≠ 50 →
      formatTokenCount tokens = specOneDecimalKilo tokens ++ "K") ∧
    (∀ tokens : Int, 0 ≤ tokens → tokens < 1000 →
      formatTokenCount tokens = intToString tokens) ∧
    (∀ (currentTokens : Int) (config : CompactionConfig),
      getContextUsageInfo currentTokens config =
        "[Context: " ++ formatTokenCount currentTokens ++ "/" ++
          formatTokenCount config.context_window ++ " (" ++
          intToString (jsRound (fl64 (fl64 ((currentTokens : Rat) /
            (config.context_window : Rat)) * 100))) ++
          "%)]") := by
  have h1500 : formatTokenCount 1500 = "1.5K" := by
    simp only [formatTokenCount, if_pos (by decide : (1000:Int) ≤ 1500)]
    rw [show (((1500:Int)):Rat) = (1500:Rat) by norm_num, toFixedOneTenths_at_1500]
    decide
  refine ⟨by decide, h1500, ?_, ?_, ?_, ?_⟩
  · intro tokens h
    simp only [formatTokenCount]
    rw [if_pos h]
  · intro tokens h1 h2 h3
    have hT := tenths_agree tokens h1 h2 h3
    simp only [formatTokenCount, specOneDecimalKilo, toFixedOneTenths]
    rw [if_pos h1, hT, floor_tenths_eq]
  · intro tokens h0 h1
    simp only [formatTokenCount]
    rw [if_neg (by omega)]
  · intro currentTokens config
    rfl

/-- Witness for the amended C10: the tie-free agreement clause applied at
1500, the faithful rendering clause at 1500, and the plain rendering
clause at 999, with every hypothesis discharged concretely. -/
theorem formatting_policy_check :
    ((1000 : Int) ≤ 1500 ∧ (1500 : Int) ≤ 4503599627370496 ∧ (1500 : Int) % 100 ≠ 50 ∧
      formatTokenCount 1500 = specOneDecimalKilo 1500 ++ "K") ∧
    (formatTokenCount 1500 =
      intToString (toFixedOneTenths (fl64 (((1500 : Int) : Rat) / 1000)) / 10) ++ "." ++
        intToString (toFixedOneTenths (fl64 (((1500 : Int) : Rat) / 1000)) % 10) ++ "K") ∧
    ((0 : Int) ≤ 999 ∧ (999 : Int) < 1000 ∧ formatTokenCount 999 = intToString 999) :=
  ⟨⟨by decide, by decide, by decide,
      formatting_policy.2.2.2.1 1500 (by decide) (by decide) (by decide)⟩,
    formatting_policy.2.2.1 1500 (by decide),
    ⟨by decide, by decide, formatting_policy.2.2.2.2.1 999 (by decide) (by decide)⟩⟩

end DeepagentsBot
